import Mathlib

/-!
Verification of the Random OT protocol (package `ot`) and the ECDSA signature
helpers (package `ecdsa`) of `koteld/multi-party-sig`.

Shallow embedding conventions.

The elliptic-curve group (package `pkg/math/curve`, not part of the verified
sources) is consumed only through its algebraic contract.  We model it by
discrete logarithms: a point is represented by its discrete logarithm with
respect to the generator `G`, as an `Int`; a scalar is an `Int`.  Under this
model `ActOnBase a = a`, `Act s p = s * p`, `Add = +`, `Sub = -`.  Point
serialization (`MarshalBinary` / `UnmarshalBinary`) is an abstract pair of
functions bundled with its round-trip contract in `Marshalling`.

The keyed hash (`blake3.NewKeyed nonce` with reset/write/digest discipline) is
modelled as a function `H : List Nat → List Nat`: every digest in the source
is produced by resetting the hasher, writing a single buffer and reading
`OTBytes` bytes, so each digest is a pure function of the written buffer.
`IsOracle` records the contract that digests are `OTBytes` bytes long with
each byte below 256.

Byte buffers (`[params.OTBytes]byte`, `[]byte`) become `List Nat` whose
elements are the byte values.  Go byte arithmetic is kept explicit:
`-byte(choice)` becomes `maskOf choice` (255 or 0), and the masking loops of
the source become `ctSelect` and `xorMaskedInto`.
-/

/-- Modelled from the spec: `params.OTBytes`, the security parameter for pad
and commitment sizes, is 32 bytes (`internal/params` is not among the
verified sources; spec section 6 fixes it as 32). -/
def OTBytes : Nat := 32

/-- Go zero value of a `[OTBytes]byte` array: `OTBytes` zero bytes. -/
def zeroBuf : List Nat := List.replicate OTBytes 0

/-- Pointwise XOR of two byte buffers, as in the source loops
`x[i] ^= y[i]` over arrays of equal fixed size. -/
def xorBytes (x y : List Nat) : List Nat :=
  List.zipWith (fun a b => a ^^^ b) x y

/-- Byte mask `-byte(choice)` of the source: `0xFF` when the choice bit is
set, `0x00` otherwise (byte negation is modulo 256). -/
def maskOf (c : Bool) : Nat := if c then 255 else 0

/-- Constant-time arithmetic selection loop of the source:
`x[i] ^= mask AND (x[i] XOR y[i])` for `i` below the length of both lists;
entries of `x` beyond the length of `y` are left unchanged. -/
def ctSelect (mask : Nat) : List Nat → List Nat → List Nat
  | [], _ => []
  | x :: xs, [] => x :: xs
  | x :: xs, y :: ys => (x ^^^ (mask &&& (x ^^^ y))) :: ctSelect mask xs ys

/-- Masked XOR loop of the source: `x[i] ^= mask AND c[i]` for `i` below the
length of `c`; entries of `x` beyond the length of `c` are unchanged. -/
def xorMaskedInto (mask : Nat) : List Nat → List Nat → List Nat
  | [], _ => []
  | x :: xs, [] => x :: xs
  | x :: xs, c :: cs => (x ^^^ (mask &&& c)) :: xorMaskedInto mask xs cs

/-- Model of `crypto/subtle.ConstantTimeCompare` (Go standard library,
external collaborator), by its documented contract: returns 1 if the two
slices have equal contents and length, and 0 otherwise. -/
def constantTimeCompare (x y : List Nat) : Nat :=
  if x = y then 1 else 0

theorem constantTimeCompare_eq_one (x y : List Nat) :
    constantTimeCompare x y = 1 ↔ x = y := by
  unfold constantTimeCompare
  split <;> simp_all

theorem constantTimeCompare_self (x : List Nat) : constantTimeCompare x x = 1 := by
  simp [constantTimeCompare]

/-- A byte below 256 is fixed by masking with `0xFF`. -/
theorem land_mask_byte {c : Nat} (h : c < 256) : 255 &&& c = c := by
  rw [Nat.land_comm]
  have h2 : c < 2 ^ 8 := by norm_num; exact h
  have h3 := Nat.and_pow_two_sub_one_of_lt_two_pow h2
  norm_num at h3
  exact h3

/-- Core byte identity behind the arithmetic selection: for bytes
`a`, `b` the masked combination with mask `0xFF` selects `b`. -/
theorem byte_select {a b : Nat} (ha : a < 256) (hb : b < 256) :
    a ^^^ (255 &&& (a ^^^ b)) = b := by
  have ha2 : a < 2 ^ 8 := by norm_num; exact ha
  have hb2 : b < 2 ^ 8 := by norm_num; exact hb
  have hxor : a ^^^ b < 256 := by
    have h3 := @Nat.xor_lt_two_pow a b 8 ha2 hb2
    norm_num at h3
    exact h3
  rw [land_mask_byte hxor, ← Nat.xor_assoc, Nat.xor_self, Nat.zero_xor]

theorem ctSelect_zero (xs ys : List Nat) : ctSelect 0 xs ys = xs := by
  induction xs generalizing ys with
  | nil => cases ys <;> rfl
  | cons x xs ih =>
    cases ys with
    | nil => rfl
    | cons y ys => simp [ctSelect, ih]

theorem ctSelect_top (xs ys : List Nat)
    (hx : ∀ b ∈ xs, b < 256) (hy : ∀ b ∈ ys, b < 256)
    (hlen : xs.length = ys.length) : ctSelect 255 xs ys = ys := by
  induction xs generalizing ys with
  | nil => cases ys with
    | nil => rfl
    | cons y ys => simp at hlen
  | cons x xs ih =>
    cases ys with
    | nil => simp at hlen
    | cons y ys =>
      show (x ^^^ (255 &&& (x ^^^ y))) :: ctSelect 255 xs ys = y :: ys
      rw [byte_select (hx x (by simp)) (hy y (by simp)),
        ih ys (fun b hb => hx b (by simp [hb])) (fun b hb => hy b (by simp [hb]))
          (by simpa using hlen)]

theorem xorMaskedInto_zero (xs cs : List Nat) : xorMaskedInto 0 xs cs = xs := by
  induction xs generalizing cs with
  | nil => cases cs <;> rfl
  | cons x xs ih =>
    cases cs with
    | nil => rfl
    | cons c cs => simp [xorMaskedInto, ih]

/-- Cancellation identity used by the response computation: XOR-ing the
challenge `x XOR y` into `x` with a full mask recovers `y`. -/
theorem xorMaskedInto_top_cancel (xs ys : List Nat)
    (hx : ∀ b ∈ xs, b < 256) (hy : ∀ b ∈ ys, b < 256)
    (hlen : xs.length = ys.length) :
    xorMaskedInto 255 xs (xorBytes xs ys) = ys := by
  induction xs generalizing ys with
  | nil => cases ys with
    | nil => rfl
    | cons y ys => simp at hlen
  | cons x xs ih =>
    cases ys with
    | nil => simp at hlen
    | cons y ys =>
      show (x ^^^ (255 &&& (x ^^^ y))) :: xorMaskedInto 255 xs (xorBytes xs ys) = y :: ys
      rw [byte_select (hx x (by simp)) (hy y (by simp)),
        ih ys (fun b hb => hx b (by simp [hb])) (fun b hb => hy b (by simp [hb]))
          (by simpa using hlen)]

theorem xorBytes_comm (xs ys : List Nat) : xorBytes xs ys = xorBytes ys xs := by
  induction xs generalizing ys with
  | nil => cases ys <;> rfl
  | cons x xs ih =>
    cases ys with
    | nil => rfl
    | cons y ys =>
      show (x ^^^ y) :: xorBytes xs ys = (y ^^^ x) :: xorBytes ys xs
      rw [Nat.xor_comm x y, ih ys]

/-- Modelled from the spec: the keyed RandomOracle contract (spec section 6).
A digest is `OTBytes` long and consists of byte values. -/
structure IsOracle (H : List Nat → List Nat) : Prop where
  len : ∀ x, (H x).length = OTBytes
  bound : ∀ x, ∀ b ∈ H x, b < 256

/-- Modelled from the spec: the CurveGroup point serialization contract
(binary marshal and unmarshal of points, spec section 6), over the
discrete-log model of the group. -/
structure Marshalling where
  marshal : Int → List Nat
  unmarshal : List Nat → Option Int
  roundtrip : ∀ p, unmarshal (marshal p) = some p
  bound : ∀ p, ∀ b ∈ marshal p, b < 256

/-!
Random OT protocol (`ot` package of the sources).  Points and scalars are in
the discrete-log model (`Int`); the per-session keyed hasher is the function
stored in the `hash` field.  Methods with a pointer receiver return the
updated state explicitly.
-/

/-- RandomOTSetupSendMessage is the message generated by the sender of the
OT.  The Schnorr proof type is abstract (the proof scheme `pkg/zk/sch` is an
external contract here), so the structure is parameterized by it. -/
structure RandomOTSetupSendMessage (P : Type) where
  B : Int
  BProof : P

/-- RandomOTSendSetup is the result that should be saved for the sender. -/
structure RandomOTSendSetup where
  b : Int
  B_pub : Int
  bB : Int

/-- RandomOTSetupSend runs the Sender part of the setup protocol for Random
OT.  The sampled secret scalar `b` is an explicit argument; the Schnorr
prover (which in the source binds the proof to the ambient hash context) is
an abstract function `prv`. -/
def RandomOTSetupSend {P : Type} (prv : Int → P) (b : Int) :
    RandomOTSetupSendMessage P × RandomOTSendSetup :=
  let B := b
  ({ B := B, BProof := prv b }, { b := b, B_pub := B, bB := b * B })

/-- RandomOTReceiveSetup is the result that should be saved for the
receiver. -/
structure RandomOTReceiveSetup where
  B_pub : Int

/-- RandomOTSetupReceive runs the Receiver part of the setup protocol for
Random OT.  Proof verification (`msg.BProof.Verify(hash, msg.B, nil)` in the
source, where `hash` carries the ambient context) is the abstract predicate
`verify`.  Modelled from the spec: the SchnorrProof verify contract of spec
section 6. -/
def RandomOTSetupReceive {P : Type} (verify : P → Int → Bool)
    (msg : RandomOTSetupSendMessage P) : Except String RandomOTReceiveSetup :=
  if ¬ verify msg.BProof msg.B then
    Except.error "RandomOTSetupReceive: Schnorr proof failed to verify"
  else
    Except.ok { B_pub := msg.B }

/-- RandomOTReceiver contains the state needed for a single execution of a
Random OT.  The `hash` field is the keyed hasher built from the session
nonce; `choice` models the `safenum.Choice` bit. -/
structure RandomOTReceiever where
  hash : List Nat → List Nat
  choice : Bool
  B_pub : Int
  randChoice : List Nat
  receivedChallenge : List Nat
  hh_randChoice : List Nat

/-- NewRandomOTReceiver sets up the receiver state for a single Random OT.
The keyed hasher construction `blake3.NewKeyed nonce` is abstracted to
passing the resulting digest function `H` directly (the same nonce yields
the same function on both sides).  The per-round byte arrays start as Go
zero values. -/
def NewRandomOTReceiver (H : List Nat → List Nat)
    (result : RandomOTReceiveSetup) (choice : Bool) : RandomOTReceiever :=
  { hash := H, choice := choice, B_pub := result.B_pub,
    randChoice := zeroBuf, receivedChallenge := zeroBuf, hh_randChoice := zeroBuf }

/-- RandomOTReceiveRound1Message is the first message sent by the receiver
in a Random OT. -/
structure RandomOTReceiveRound1Message where
  ABytes : List Nat

/-- Round1 executes the receiver side of round 1 of a Random OT.  The
sampled ephemeral scalar `a` is an explicit argument.  In the discrete-log
model `a.ActOnBase` is `a`, `A.Add B` is `A + B` and `a.Act B` is `a * B`;
point serialization is `M.marshal` (total, so the serialization error paths
of the source cannot fire). -/
def RandomOTReceiever.Round1 (r : RandomOTReceiever) (M : Marshalling)
    (a : Int) : RandomOTReceiveRound1Message × RandomOTReceiever :=
  let A := a
  let ABytes := M.marshal A
  let A2 := A + r.B_pub
  let APlusBBytes := M.marshal A2
  let outBytes := ctSelect (maskOf r.choice) ABytes APlusBBytes
  let abBytes := M.marshal (a * r.B_pub)
  let randChoice := r.hash abBytes
  ({ ABytes := outBytes }, { r with randChoice := randChoice })

/-- RandomOTReceiveRound2Message is the second message sent by the receiver
in a Random OT. -/
structure RandomOTReceiveRound2Message where
  Response : List Nat

/-- RandomOTSendRound1Message is the message sent by the sender in
round 1. -/
structure RandomOTSendRound1Message where
  Challenge : List Nat

/-- Round2 executes the receiver side of round 2 of a Random OT:
`response = H(H(randChoice))`, XOR-ed with the challenge under the choice
mask; `H(H(randChoice))` is cached in `hh_randChoice`. -/
def RandomOTReceiever.Round2 (r : RandomOTReceiever)
    (msg : RandomOTSendRound1Message) :
    RandomOTReceiveRound2Message × RandomOTReceiever :=
  let resp1 := r.hash r.randChoice
  let resp2 := r.hash resp1
  let response := xorMaskedInto (maskOf r.choice) resp2 msg.Challenge
  ({ Response := response },
   { r with receivedChallenge := msg.Challenge, hh_randChoice := resp2 })

/-- RandomOTSendRound2Message is the message sent by the sender in round 2
of a Random OT. -/
structure RandomOTSendRound2Message where
  Decommit0 : List Nat
  Decommit1 : List Nat

/-- Round3 finalizes the result for the receiver, performing verification.
The random choice is returned as the first component on every path. -/
def RandomOTReceiever.Round3 (r : RandomOTReceiever)
    (msg : RandomOTSendRound2Message) : List Nat × Option String :=
  let h_decommit0 := r.hash msg.Decommit0
  let h_decommit1 := r.hash msg.Decommit1
  let actualChallenge := xorBytes h_decommit0 h_decommit1
  if constantTimeCompare r.receivedChallenge actualChallenge ≠ 1 then
    (r.randChoice, some "RandomOTReceive Round 3: incorrect decommitment")
  else
    let h_decommitChoice := ctSelect (maskOf r.choice) h_decommit0 h_decommit1
    if constantTimeCompare h_decommitChoice r.hh_randChoice ≠ 1 then
      (r.randChoice, some "RandomOTReceive Round 3: incorrect decommitment")
    else
      (r.randChoice, none)

/-- RandomOTSender holds the state needed for a single execution of a
Random OT. -/
structure RandomOTSender where
  hash : List Nat → List Nat
  b : Int
  B_pub : Int
  bB : Int
  rand0 : List Nat
  rand1 : List Nat
  decommit0 : List Nat
  decommit1 : List Nat
  h_decommit0 : List Nat

/-- NewRandomOTSender sets up the sender state for a single Random OT, from
a saved setup and the keyed hasher for the session nonce. -/
def NewRandomOTSender (H : List Nat → List Nat)
    (result : RandomOTSendSetup) : RandomOTSender :=
  { hash := H, b := result.b, B_pub := result.B_pub, bB := result.bB,
    rand0 := zeroBuf, rand1 := zeroBuf, decommit0 := zeroBuf,
    decommit1 := zeroBuf, h_decommit0 := zeroBuf }

/-- Round1 executes the sender side of round 1 for a Random OT:
deserialize the received point, derive both pads, both decommitments, cache
`h_decommit0 = H(decommit0)` and send `challenge = H(decommit1) XOR
h_decommit0`.  Deserialization failure is the only error path. -/
def RandomOTSender.Round1 (r : RandomOTSender) (M : Marshalling)
    (msg : RandomOTReceiveRound1Message) :
    Except String (RandomOTSendRound1Message × RandomOTSender) :=
  match M.unmarshal msg.ABytes with
  | none => Except.error "RandomOTSender Round1: UnmarshalBinary"
  | some A =>
    let bA := r.b * A
    let rand0 := r.hash (M.marshal bA)
    let rand1 := r.hash (M.marshal (bA - r.bB))
    let decommit0 := r.hash rand0
    let decommit1 := r.hash rand1
    let h_decommit0 := r.hash decommit0
    let challenge := xorBytes (r.hash decommit1) h_decommit0
    Except.ok ({ Challenge := challenge },
      { r with rand0 := rand0, rand1 := rand1, decommit0 := decommit0,
               decommit1 := decommit1, h_decommit0 := h_decommit0 })

/-- RandomOTSendResult is the result for a sender in a Random OT. -/
structure RandomOTSendResult where
  Rand0 : List Nat
  Rand1 : List Nat

/-- Return bundle of the sender round 2: the outgoing message, the result,
the error, and the (unmodified) session state of the pointer receiver. -/
structure SenderRound2 where
  outMsg : RandomOTSendRound2Message
  res : RandomOTSendResult
  err : Option String
  state : RandomOTSender

/-- Round2 executes the sender side of round 2 in a Random OT.  The named
return values `outMsg` and `res` start as Go zero values and stay zero on
the error path; the body never writes to the receiver `r`. -/
def RandomOTSender.Round2 (r : RandomOTSender)
    (msg : RandomOTReceiveRound2Message) : SenderRound2 :=
  if constantTimeCompare msg.Response r.h_decommit0 ≠ 1 then
    { outMsg := { Decommit0 := zeroBuf, Decommit1 := zeroBuf },
      res := { Rand0 := zeroBuf, Rand1 := zeroBuf },
      err := some "RandomOTSender Round2: invalid response",
      state := r }
  else
    { outMsg := { Decommit0 := r.decommit0, Decommit1 := r.decommit1 },
      res := { Rand0 := r.rand0, Rand1 := r.rand1 },
      err := none,
      state := r }

/-!
ECDSA signature helpers (`pkg/ecdsa/signature.go`).  The repository carries
two revisions of `ToCompactEth`; both are embedded (`ToCompactEth_v1` from
the first revision, `ToCompactEth_v2` from the second).  Points are again in
the discrete-log model; the coordinate-level curve operations (`XScalar`,
`XBytes`, `IsOddYBit`, scalar serialization) are abstract fields of the
curve model.
-/

/-- Modelled from the spec: the CurveGroup contract of spec section 6 used
by the signature component (scalar arithmetic modulo the group order `q`,
X-coordinate extraction, Y-parity bit, 32-byte serializations), over the
discrete-log model of the group: a point is its discrete logarithm in
`ZMod q`, a scalar is a `ZMod q` value, `Act` is multiplication and
`ActOnBase` is the identity. -/
structure ECurve where
  q : Nat
  xScalar : ZMod q → ZMod q
  fromHash : List Nat → ZMod q
  xBytes : ZMod q → List Nat
  scalarBytes : ZMod q → List Nat
  isOddYBit : ZMod q → Nat

/-- Modelled from the spec: `Scalar.IsOverHalfOrder` reports whether the
scalar exceeds half the group order. -/
def ECurve.isOverHalfOrder (C : ECurve) (s : ZMod C.q) : Bool :=
  decide (C.q < 2 * s.val)

/-- A signature is a pair of a curve point `R` and a scalar `S`. -/
structure Signature (C : ECurve) where
  R : ZMod C.q
  S : ZMod C.q

/-- Verify is a custom signature format using curve data: it checks that
`sInv.Act(mG.Add(rX))` equals `R`.  The source makes a defensive copy
`group.NewScalar().Set(sig.S)` before inverting, so `sig.S` is not
mutated; `Invert` is the modular inverse. -/
def Signature.Verify {C : ECurve} (sig : Signature C) (X : ZMod C.q)
    (hash : List Nat) : Bool :=
  let m := C.fromHash hash
  let sInv := sig.S⁻¹
  let mG := m
  let r := C.xScalar sig.R
  let rX := r * X
  let R2 := mG + rX
  let R3 := sInv * R2
  decide (R3 = sig.R)

/-- Size of a compact signature: `compactSigSize = 65`. -/
def compactSigSize : Nat := 65

/-- Go `copy(b[s:e], src)` on byte slices: overwrites positions
`s, ..., s + k - 1` of `b` with the first `k` bytes of `src`, where
`k = min (e - s) src.length`. -/
def goCopy (b : List Nat) (s e : Nat) (src : List Nat) : List Nat :=
  let k := min (e - s) src.length
  b.take s ++ src.take k ++ b.drop (s + k)

/-- ToCompactEth, first revision: serializes the signature to
`[R || S || V]` without normalizing `S`; the recovery byte XORs the
Y-parity of `R` with the flag `sig.S.IsOverHalfOrder()`. -/
def Signature.ToCompactEth_v1 {C : ECurve} (sig : Signature C) : List Nat :=
  let b := List.replicate compactSigSize 0
  let bytesR := C.xBytes sig.R
  let bytesS := C.scalarBytes sig.S
  let b := goCopy b 0 32 bytesR
  let b := goCopy b 32 64 bytesS
  let recoveryID := C.isOddYBit sig.R
  let recoveryID :=
    if C.isOverHalfOrder sig.S then recoveryID ^^^ 1 else recoveryID
  b.set 64 recoveryID

/-- ToCompactEth, second revision: tests `R.XScalar().IsOverHalfOrder()`
and, when it holds, flips the recovery bit and calls `S.Negate()`.  The Go
local `S := sig.S` copies an interface value aliasing the scalar object and
`Negate` mutates it in place (compare the defensive
`group.NewScalar().Set(sig.S)` in `Verify`), so the second component of the
result is the caller-visible signature after the call. -/
def Signature.ToCompactEth_v2 {C : ECurve} (sig : Signature C) :
    List Nat × Signature C :=
  let b := List.replicate compactSigSize 0
  let R := sig.R
  let negate := C.isOverHalfOrder (C.xScalar R)
  let recoveryID := C.isOddYBit R
  let recoveryID := if negate then recoveryID ^^^ 1 else recoveryID
  let S := if negate then -sig.S else sig.S
  let bytesR := C.xBytes R
  let bytesS := C.scalarBytes S
  let b := goCopy b 0 32 bytesR
  let b := goCopy b 32 64 bytesS
  (b.set 64 recoveryID, { sig with S := S })

/-!
Helper lemmas describing one honest execution of the Random OT protocol:
both parties share one setup (sender secret `b`) and one session hasher `H`
(same nonce), the receiver samples `a`, and every message is delivered
unchanged.
-/

theorem sender_round1_eq (M : Marshalling) (s : RandomOTSender) (p : Int) :
    s.Round1 M { ABytes := M.marshal p } =
      Except.ok
        ({ Challenge := xorBytes (s.hash (s.hash (s.hash (M.marshal (s.b * p - s.bB)))))
             (s.hash (s.hash (s.hash (M.marshal (s.b * p))))) },
         { s with
            rand0 := s.hash (M.marshal (s.b * p)),
            rand1 := s.hash (M.marshal (s.b * p - s.bB)),
            decommit0 := s.hash (s.hash (M.marshal (s.b * p))),
            decommit1 := s.hash (s.hash (M.marshal (s.b * p - s.bB))),
            h_decommit0 := s.hash (s.hash (s.hash (M.marshal (s.b * p)))) }) := by
  unfold RandomOTSender.Round1
  rw [M.roundtrip p]

theorem honest_round1_recv (M : Marshalling) (H : List Nat → List Nat)
    (b a : Int) (choice : Bool)
    (hlen : (M.marshal a).length = (M.marshal (a + b)).length) :
    (NewRandomOTReceiver H { B_pub := b } choice).Round1 M a =
      ({ ABytes := M.marshal (if choice then a + b else a) },
       { hash := H, choice := choice, B_pub := b,
         randChoice := H (M.marshal (a * b)),
         receivedChallenge := zeroBuf, hh_randChoice := zeroBuf }) := by
  cases choice with
  | false =>
    simp [RandomOTReceiever.Round1, NewRandomOTReceiver, maskOf, ctSelect_zero]
  | true =>
    simp only [RandomOTReceiever.Round1, NewRandomOTReceiver, maskOf, if_pos]
    rw [ctSelect_top (M.marshal a) (M.marshal (a + b)) (M.bound a) (M.bound (a + b)) hlen]

theorem honest_response_eq (M : Marshalling) (H : List Nat → List Nat)
    (hO : IsOracle H) (b a : Int) (choice : Bool) :
    xorMaskedInto (maskOf choice)
        (H (H (H (M.marshal (a * b)))))
        (xorBytes
          (H (H (H (M.marshal (b * (if choice then a + b else a) - b * b)))))
          (H (H (H (M.marshal (b * (if choice then a + b else a)))))))
      = H (H (H (M.marshal (b * (if choice then a + b else a))))) := by
  cases choice with
  | false =>
    have hc : b * a = a * b := by ring
    simp only [Bool.false_eq_true, if_false, maskOf, xorMaskedInto_zero, hc]
  | true =>
    have hc : b * (a + b) - b * b = a * b := by ring
    simp only [if_pos, maskOf, hc]
    exact xorMaskedInto_top_cancel _ _ (hO.bound _) (hO.bound _)
      (by rw [hO.len, hO.len])

theorem sender_round2_ok (s : RandomOTSender) (msg : RandomOTReceiveRound2Message)
    (h : msg.Response = s.h_decommit0) :
    s.Round2 msg =
      { outMsg := { Decommit0 := s.decommit0, Decommit1 := s.decommit1 },
        res := { Rand0 := s.rand0, Rand1 := s.rand1 },
        err := none, state := s } := by
  simp [RandomOTSender.Round2, h, constantTimeCompare_self]

theorem honest_round3_eq (M : Marshalling) (H : List Nat → List Nat)
    (hO : IsOracle H) (b a : Int) (choice : Bool) :
    RandomOTReceiever.Round3
      { hash := H, choice := choice, B_pub := b,
        randChoice := H (M.marshal (a * b)),
        receivedChallenge :=
          xorBytes
            (H (H (H (M.marshal (b * (if choice then a + b else a) - b * b)))))
            (H (H (H (M.marshal (b * (if choice then a + b else a)))))),
        hh_randChoice := H (H (H (M.marshal (a * b)))) }
      { Decommit0 := H (H (M.marshal (b * (if choice then a + b else a)))),
        Decommit1 := H (H (M.marshal (b * (if choice then a + b else a) - b * b))) }
      = (H (M.marshal (a * b)), none) := by
  cases choice with
  | false =>
    have hc : b * a = a * b := by ring
    simp only [Bool.false_eq_true, if_false, hc]
    unfold RandomOTReceiever.Round3
    dsimp only
    rw [xorBytes_comm (H (H (H (M.marshal (a * b)))))
      (H (H (H (M.marshal (a * b - b * b)))))]
    simp [constantTimeCompare_self, maskOf, ctSelect_zero]
  | true =>
    have hc : b * (a + b) - b * b = a * b := by ring
    simp only [if_pos, hc]
    unfold RandomOTReceiever.Round3
    dsimp only
    rw [xorBytes_comm (H (H (H (M.marshal (b * (a + b))))))
      (H (H (H (M.marshal (a * b)))))]
    have hm : maskOf true = 255 := rfl
    rw [hm, ctSelect_top (H (H (H (M.marshal (b * (a + b))))))
      (H (H (H (M.marshal (a * b))))) (hO.bound _) (hO.bound _)
      (by rw [hO.len, hO.len])]
    simp [constantTimeCompare_self]

theorem honest_exec (M : Marshalling) (H : List Nat → List Nat)
    (hO : IsOracle H) (b a : Int) (choice : Bool)
    (hlen : (M.marshal a).length = (M.marshal (a + b)).length) :
    ∃ (msg1 : RandomOTReceiveRound1Message) (recv1 : RandomOTReceiever)
      (chal : RandomOTSendRound1Message) (send1 : RandomOTSender)
      (msg2 : RandomOTReceiveRound2Message) (recv2 : RandomOTReceiever),
      (NewRandomOTReceiver H { B_pub := b } choice).Round1 M a = (msg1, recv1) ∧
      (NewRandomOTSender H { b := b, B_pub := b, bB := b * b }).Round1 M msg1
        = Except.ok (chal, send1) ∧
      recv1.Round2 chal = (msg2, recv2) ∧
      msg2.Response = send1.h_decommit0 ∧
      send1.Round2 msg2 =
        { outMsg := { Decommit0 := send1.decommit0, Decommit1 := send1.decommit1 },
          res := { Rand0 := send1.rand0, Rand1 := send1.rand1 },
          err := none, state := send1 } ∧
      recv2.Round3 { Decommit0 := send1.decommit0, Decommit1 := send1.decommit1 }
        = (recv1.randChoice, none) ∧
      recv1.randChoice = (if choice then send1.rand1 else send1.rand0) := by
  have h1 := honest_round1_recv M H b a choice hlen
  have h2 := sender_round1_eq M (NewRandomOTSender H { b := b, B_pub := b, bB := b * b })
      (if choice then a + b else a)
  refine ⟨{ ABytes := M.marshal (if choice then a + b else a) },
    { hash := H, choice := choice, B_pub := b, randChoice := H (M.marshal (a * b)),
      receivedChallenge := zeroBuf, hh_randChoice := zeroBuf },
    { Challenge :=
        xorBytes (H (H (H (M.marshal (b * (if choice then a + b else a) - b * b)))))
          (H (H (H (M.marshal (b * (if choice then a + b else a)))))) },
    { hash := H, b := b, B_pub := b, bB := b * b,
      rand0 := H (M.marshal (b * (if choice then a + b else a))),
      rand1 := H (M.marshal (b * (if choice then a + b else a) - b * b)),
      decommit0 := H (H (M.marshal (b * (if choice then a + b else a)))),
      decommit1 := H (H (M.marshal (b * (if choice then a + b else a) - b * b))),
      h_decommit0 := H (H (H (M.marshal (b * (if choice then a + b else a))))) },
    { Response :=
        xorMaskedInto (maskOf choice) (H (H (H (M.marshal (a * b)))))
          (xorBytes (H (H (H (M.marshal (b * (if choice then a + b else a) - b * b)))))
            (H (H (H (M.marshal (b * (if choice then a + b else a))))))) },
    { hash := H, choice := choice, B_pub := b, randChoice := H (M.marshal (a * b)),
      receivedChallenge :=
        xorBytes (H (H (H (M.marshal (b * (if choice then a + b else a) - b * b)))))
          (H (H (H (M.marshal (b * (if choice then a + b else a)))))),
      hh_randChoice := H (H (H (M.marshal (a * b)))) },
    h1, h2, rfl, ?_, ?_, ?_, ?_⟩
  · dsimp only
    exact honest_response_eq M H hO b a choice
  · refine sender_round2_ok _ _ ?_
    dsimp only
    exact honest_response_eq M H hO b a choice
  · dsimp only
    exact honest_round3_eq M H hO b a choice
  · dsimp only
    cases choice with
    | false =>
      have hc : b * a = a * b := by ring
      simp only [Bool.false_eq_true, if_false, hc]
    | true =>
      have hc : b * (a + b) - b * b = a * b := by ring
      simp only [if_pos, hc]

/-!
Concrete instances of the external contracts, used to evaluate the theorems
on closed inputs: a trivial oracle and an executable integer codec.
-/

/-- A trivial keyed-hash instance: every digest is the all-zero buffer. -/
def zeroHash : List Nat → List Nat := fun _ => zeroBuf

theorem zeroHash_oracle : IsOracle zeroHash := by
  constructor
  · intro x
    simp [zeroHash, zeroBuf]
  · intro x b hb
    simp [zeroHash, zeroBuf, List.mem_replicate] at hb
    omega

/-- Little-endian base-256 digits of `n`, with fuel for structural
recursion. -/
def natToBytesAux : Nat → Nat → List Nat
  | 0, _ => []
  | _ + 1, 0 => []
  | f + 1, n + 1 => ((n + 1) % 256) :: natToBytesAux f ((n + 1) / 256)

def natToBytes (n : Nat) : List Nat := natToBytesAux n n

def bytesToNat : List Nat → Nat
  | [] => 0
  | b :: bs => b + 256 * bytesToNat bs

theorem bytesToNat_natToBytesAux :
    ∀ f n, n ≤ f → bytesToNat (natToBytesAux f n) = n := by
  intro f
  induction f with
  | zero =>
    intro n h
    have hn : n = 0 := by omega
    subst hn
    rfl
  | succ f ih =>
    intro n h
    cases n with
    | zero => rfl
    | succ m =>
      have hdiv : (m + 1) / 256 ≤ f := by
        have := Nat.div_lt_self (Nat.succ_pos m) (by norm_num : 1 < 256)
        omega
      show (m + 1) % 256 + 256 * bytesToNat (natToBytesAux f ((m + 1) / 256)) = m + 1
      rw [ih _ hdiv]
      omega

theorem bytesToNat_natToBytes (n : Nat) : bytesToNat (natToBytes n) = n :=
  bytesToNat_natToBytesAux n n (Nat.le_refl n)

theorem natToBytesAux_bound :
    ∀ f n b, b ∈ natToBytesAux f n → b < 256 := by
  intro f
  induction f with
  | zero =>
    intro n b hb
    simp [natToBytesAux] at hb
  | succ f ih =>
    intro n b hb
    cases n with
    | zero => simp [natToBytesAux] at hb
    | succ m =>
      simp only [natToBytesAux, List.mem_cons] at hb
      rcases hb with hb | hb
      · subst hb
        exact Nat.mod_lt _ (by norm_num)
      · exact ih _ b hb

/-- Injective byte encoding of an `Int` (sign folded into parity). -/
def intMarshal (p : Int) : List Nat :=
  natToBytes (if p < 0 then 2 * p.natAbs - 1 else 2 * p.natAbs)

def intUnmarshal (bs : List Nat) : Option Int :=
  let n := bytesToNat bs
  some (if n % 2 = 1 then -(((n + 1) / 2 : Nat) : Int) else ((n / 2 : Nat) : Int))

theorem intMarshal_roundtrip (p : Int) : intUnmarshal (intMarshal p) = some p := by
  unfold intMarshal intUnmarshal
  rw [bytesToNat_natToBytes]
  simp only [Option.some.injEq]
  by_cases hp : p < 0 <;> simp only [hp, if_pos, if_false, if_true] <;> split <;> omega

/-- Executable point codec instance of the `Marshalling` contract. -/
def intMarshalling : Marshalling :=
  { marshal := intMarshal, unmarshal := intUnmarshal,
    roundtrip := intMarshal_roundtrip,
    bound := fun _ b hb => natToBytesAux_bound _ _ b hb }

/-!
Claim theorems.
-/

/-- C1: for every honest end-to-end execution (one setup shared by both
parties, the same session hasher derived from one fresh nonce on both
sides, both parties following the protocol), every validation check along
the way passes and the pad returned by the receiver Round3 equals the
sender Rand0 when choice is 0 and Rand1 when choice is 1. -/
theorem ot_honest_run_correct {P : Type} (verify : P → Int → Bool)
    (prv : Int → P) (M : Marshalling) (H : List Nat → List Nat)
    (hO : IsOracle H) (b a : Int) (choice : Bool)
    (hver : verify (prv b) b = true)
    (hlen : (M.marshal a).length = (M.marshal (a + b)).length) :
    RandomOTSetupReceive verify (RandomOTSetupSend prv b).1
      = Except.ok { B_pub := b } ∧
    ∃ (msg1 : RandomOTReceiveRound1Message) (recv1 : RandomOTReceiever)
      (chal : RandomOTSendRound1Message) (send1 : RandomOTSender)
      (msg2 : RandomOTReceiveRound2Message) (recv2 : RandomOTReceiever),
      (NewRandomOTReceiver H { B_pub := b } choice).Round1 M a = (msg1, recv1) ∧
      (NewRandomOTSender H (RandomOTSetupSend prv b).2).Round1 M msg1
        = Except.ok (chal, send1) ∧
      recv1.Round2 chal = (msg2, recv2) ∧
      (send1.Round2 msg2).err = none ∧
      recv2.Round3 (send1.Round2 msg2).outMsg
        = ((if choice then (send1.Round2 msg2).res.Rand1
            else (send1.Round2 msg2).res.Rand0), none) := by
  constructor
  · simp [RandomOTSetupReceive, RandomOTSetupSend, hver]
  · obtain ⟨m1, r1, c1, s1, m2, r2, e1, e2, e3, hresp, hr2, hr3, hpad⟩ :=
      honest_exec M H hO b a choice hlen
    refine ⟨m1, r1, c1, s1, m2, r2, e1, e2, e3, ?_, ?_⟩
    · rw [hr2]
    · rw [hr2]
      dsimp only
      rw [hr3, hpad]

/-- C2: in an honest execution the Response produced by the receiver
Round2 equals the sender cached h_decommit0 regardless of the choice bit
(for choice 0 directly, for choice 1 after the XOR with the challenge
cancels), so the sender Round2 comparison accepts an honest receiver for
both choice values. -/
theorem ot_round2_response_matches (M : Marshalling)
    (H : List Nat → List Nat) (hO : IsOracle H) (b a : Int) (choice : Bool)
    (hlen : (M.marshal a).length = (M.marshal (a + b)).length) :
    ∃ (msg1 : RandomOTReceiveRound1Message) (recv1 : RandomOTReceiever)
      (chal : RandomOTSendRound1Message) (send1 : RandomOTSender)
      (msg2 : RandomOTReceiveRound2Message) (recv2 : RandomOTReceiever),
      (NewRandomOTReceiver H { B_pub := b } choice).Round1 M a = (msg1, recv1) ∧
      (NewRandomOTSender H { b := b, B_pub := b, bB := b * b }).Round1 M msg1
        = Except.ok (chal, send1) ∧
      recv1.Round2 chal = (msg2, recv2) ∧
      msg2.Response = send1.h_decommit0 ∧
      (send1.Round2 msg2).err = none := by
  obtain ⟨m1, r1, c1, s1, m2, r2, e1, e2, e3, hresp, hr2, hr3, hpad⟩ :=
    honest_exec M H hO b a choice hlen
  refine ⟨m1, r1, c1, s1, m2, r2, e1, e2, e3, hresp, ?_⟩
  rw [hr2]

/-- C4: the sender Round2 fails with the invalid-response error exactly
when the received Response differs from the stored h_decommit0; on success
it reveals exactly decommit0 and decommit1 and returns the result built
from rand0 and rand1 of Round1. -/
theorem sender_round2_iff (r : RandomOTSender)
    (msg : RandomOTReceiveRound2Message) :
    ((r.Round2 msg).err = none ↔ msg.Response = r.h_decommit0) ∧
    (msg.Response ≠ r.h_decommit0 →
      (r.Round2 msg).err = some "RandomOTSender Round2: invalid response") ∧
    (msg.Response = r.h_decommit0 →
      (r.Round2 msg).outMsg = { Decommit0 := r.decommit0, Decommit1 := r.decommit1 } ∧
      (r.Round2 msg).res = { Rand0 := r.rand0, Rand1 := r.rand1 }) := by
  unfold RandomOTSender.Round2
  by_cases h : msg.Response = r.h_decommit0
  · simp [h, constantTimeCompare_self]
  · have h1 : constantTimeCompare msg.Response r.h_decommit0 ≠ 1 := by
      simpa [constantTimeCompare_eq_one] using h
    simp [h, h1]

/-- C5: the receiver Round3 succeeds exactly when the recomputed XOR of the
two decommitment hashes equals the stored challenge and the choice-selected
decommitment hash equals the cached hh_randChoice; both failure sub-causes
produce the identical error, and on success Round3 returns randChoice. -/
theorem receiver_round3_iff (r : RandomOTReceiever)
    (msg : RandomOTSendRound2Message) (hO : IsOracle r.hash) :
    ((r.Round3 msg).2 = none ↔
      (r.receivedChallenge = xorBytes (r.hash msg.Decommit0) (r.hash msg.Decommit1) ∧
       r.hash (if r.choice then msg.Decommit1 else msg.Decommit0) = r.hh_randChoice)) ∧
    ((r.Round3 msg).2 = none ∨
      (r.Round3 msg).2 = some "RandomOTReceive Round 3: incorrect decommitment") ∧
    ((r.Round3 msg).2 = none → (r.Round3 msg).1 = r.randChoice) := by
  have hsel : ctSelect (maskOf r.choice) (r.hash msg.Decommit0) (r.hash msg.Decommit1)
      = r.hash (if r.choice then msg.Decommit1 else msg.Decommit0) := by
    cases hc : r.choice
    · simp [maskOf, ctSelect_zero]
    · simp only [maskOf, if_pos]
      rw [ctSelect_top _ _ (hO.bound _) (hO.bound _) (by rw [hO.len, hO.len])]
  by_cases h1 : r.receivedChallenge
      = xorBytes (r.hash msg.Decommit0) (r.hash msg.Decommit1)
  · by_cases h2 : r.hash (if r.choice then msg.Decommit1 else msg.Decommit0)
        = r.hh_randChoice
    · have hval : r.Round3 msg = (r.randChoice, none) := by
        unfold RandomOTReceiever.Round3
        dsimp only
        rw [hsel, if_neg (by simp [constantTimeCompare_eq_one, h1]),
          if_neg (by simp [constantTimeCompare_eq_one, h2])]
      rw [hval]
      simp [h1, h2]
    · have hval : r.Round3 msg
          = (r.randChoice, some "RandomOTReceive Round 3: incorrect decommitment") := by
        unfold RandomOTReceiever.Round3
        dsimp only
        rw [hsel, if_neg (by simp [constantTimeCompare_eq_one, h1]),
          if_pos (by simp [constantTimeCompare_eq_one, h2])]
      rw [hval]
      simp [h1, h2]
  · have hval : r.Round3 msg
        = (r.randChoice, some "RandomOTReceive Round 3: incorrect decommitment") := by
      unfold RandomOTReceiever.Round3
      dsimp only
      rw [if_pos (by simp [constantTimeCompare_eq_one, h1])]
    rw [hval]
    simp [h1]

/-- C6: RandomOTSetupReceive returns an error exactly when the Schnorr
proof in the setup message fails to verify against the point B it carries;
on success it returns a receiver setup containing exactly that point B. -/
theorem setup_receive_iff {P : Type} (verify : P → Int → Bool)
    (msg : RandomOTSetupSendMessage P) :
    (RandomOTSetupReceive verify msg = Except.ok { B_pub := msg.B }
      ↔ verify msg.BProof msg.B = true) ∧
    (verify msg.BProof msg.B = false →
      RandomOTSetupReceive verify msg
        = Except.error "RandomOTSetupReceive: Schnorr proof failed to verify") := by
  unfold RandomOTSetupReceive
  cases hv : verify msg.BProof msg.B <;> simp [hv]

/-- C8: when the sender Round2 fails, the returned round-2 message and
result are entirely zero-valued and the session state is unchanged, so no
decommitment or pad material is revealed on the error path. -/
theorem sender_round2_failure_zeroes (r : RandomOTSender)
    (msg : RandomOTReceiveRound2Message) (h : msg.Response ≠ r.h_decommit0) :
    (r.Round2 msg).outMsg = { Decommit0 := zeroBuf, Decommit1 := zeroBuf } ∧
    (r.Round2 msg).res = { Rand0 := zeroBuf, Rand1 := zeroBuf } ∧
    (r.Round2 msg).err = some "RandomOTSender Round2: invalid response" ∧
    (r.Round2 msg).state = r := by
  have h1 : constantTimeCompare msg.Response r.h_decommit0 ≠ 1 := by
    simpa [constantTimeCompare_eq_one] using h
  unfold RandomOTSender.Round2
  rw [if_pos h1]
  simp

/-- C9: the receiver Round3 returns the stored randChoice pad as its first
component on every path, including both failure paths. -/
theorem receiver_round3_returns_pad (r : RandomOTReceiever)
    (msg : RandomOTSendRound2Message) :
    (r.Round3 msg).1 = r.randChoice := by
  unfold RandomOTReceiever.Round3
  dsimp only
  split
  · rfl
  · split <;> rfl

/-- C7: Verify returns true exactly when the inverse of S acting on
(m acting on the base point, added to r acting on the public key) yields
the curve point R, where m is the hash mapped to a scalar and r the scalar
formed from the X-coordinate of R; equality is tested directly on curve
points. -/
theorem signature_verify_iff (C : ECurve) (sig : Signature C)
    (X : ZMod C.q) (hash : List Nat) :
    sig.Verify X hash = true ↔
      sig.S⁻¹ * (C.fromHash hash + C.xScalar sig.R * X) = sig.R := by
  unfold Signature.Verify
  simp [decide_eq_true_eq]

/-- A small concrete curve model (group order 7, identity X-coordinate
extraction, one-byte-significant 32-byte serializations) used to evaluate
the compact-encoding functions on closed inputs. -/
def Cx : ECurve :=
  { q := 7
    xScalar := fun p => p
    fromHash := fun _ => 0
    xBytes := fun p => p.val :: List.replicate 31 0
    scalarBytes := fun s => s.val :: List.replicate 31 0
    isOddYBit := fun p => p.val % 2 }

/-- C3: concrete evaluations showing both revisions of ToCompactEth break
the stated low-S rule.  Second revision: for the signature with R at
discrete log 5 and S equal to 1 the scalar S is not over half order, yet
the serialized S bytes are those of the negated scalar, because the
negation is keyed on the X-coordinate scalar of R.  First revision: for S
equal to 5 (over half order) the serialized bytes are those of the
un-negated S, yet the recovery byte carries the flipped flag. -/
theorem toCompactEth_lowS_bug :
    (Cx.isOverHalfOrder ((1 : ZMod Cx.q)) = false ∧
      ((({ R := 5, S := 1 } : Signature Cx).ToCompactEth_v2).1.drop 32).take 32
        ≠ Cx.scalarBytes ((1 : ZMod Cx.q))) ∧
    (Cx.isOverHalfOrder ((5 : ZMod Cx.q)) = true ∧
      ((({ R := 2, S := 5 } : Signature Cx).ToCompactEth_v1).drop 32).take 32
        ≠ Cx.scalarBytes (-(5 : ZMod Cx.q)) ∧
      (({ R := 2, S := 5 } : Signature Cx).ToCompactEth_v1).drop 64
        = [Cx.isOddYBit ((2 : ZMod Cx.q)) ^^^ 1]) := by
  decide

/-- C10: concrete evaluation showing the second revision of ToCompactEth
mutates the signature it serializes: when the X-coordinate scalar of R is
over half order, the in-place Negate on the aliased scalar leaves the
caller-visible S equal to the negated value. -/
theorem toCompactEth_mutates_S :
    Cx.isOverHalfOrder (Cx.xScalar ((5 : ZMod Cx.q))) = true ∧
    ((({ R := 5, S := 1 } : Signature Cx).ToCompactEth_v2).2).S
      ≠ ({ R := 5, S := 1 } : Signature Cx).S ∧
    ((({ R := 5, S := 1 } : Signature Cx).ToCompactEth_v2).2).S
      = -(1 : ZMod Cx.q) ∧
    ((({ R := 5, S := 1 } : Signature Cx).ToCompactEth_v2).2).R
      = ({ R := 5, S := 1 } : Signature Cx).R := by
  decide

/-!
Witnesses: each claim theorem with hypotheses applied at a closed input.
-/

def sendW : RandomOTSender :=
  { hash := zeroHash, b := 0, B_pub := 0, bB := 0, rand0 := zeroBuf,
    rand1 := zeroBuf, decommit0 := zeroBuf, decommit1 := zeroBuf,
    h_decommit0 := zeroBuf }

def recvW : RandomOTReceiever :=
  { hash := zeroHash, choice := false, B_pub := 0, randChoice := zeroBuf,
    receivedChallenge := zeroBuf, hh_randChoice := zeroBuf }

def msg2W : RandomOTReceiveRound2Message := { Response := zeroBuf }

def msg2Wbad : RandomOTReceiveRound2Message := { Response := [1] }

def msg3W : RandomOTSendRound2Message :=
  { Decommit0 := zeroBuf, Decommit1 := zeroBuf }

def setupMsgW : RandomOTSetupSendMessage Unit := { B := 0, BProof := () }

theorem ot_honest_run_correct_witness :
    RandomOTSetupReceive (fun (_ : Unit) (_ : Int) => true)
        (RandomOTSetupSend (fun _ => ()) 1).1 = Except.ok { B_pub := 1 } ∧
    ∃ (msg1 : RandomOTReceiveRound1Message) (recv1 : RandomOTReceiever)
      (chal : RandomOTSendRound1Message) (send1 : RandomOTSender)
      (msg2 : RandomOTReceiveRound2Message) (recv2 : RandomOTReceiever),
      (NewRandomOTReceiver zeroHash { B_pub := 1 } true).Round1 intMarshalling 1
        = (msg1, recv1) ∧
      (NewRandomOTSender zeroHash
          (RandomOTSetupSend (fun _ => ()) 1).2).Round1 intMarshalling msg1
        = Except.ok (chal, send1) ∧
      recv1.Round2 chal = (msg2, recv2) ∧
      (send1.Round2 msg2).err = none ∧
      recv2.Round3 (send1.Round2 msg2).outMsg
        = ((if true then (send1.Round2 msg2).res.Rand1
            else (send1.Round2 msg2).res.Rand0), none) :=
  ot_honest_run_correct (fun _ _ => true) (fun _ => ()) intMarshalling zeroHash
    zeroHash_oracle 1 1 true rfl (by decide)

theorem ot_round2_response_matches_witness :
    ∃ (msg1 : RandomOTReceiveRound1Message) (recv1 : RandomOTReceiever)
      (chal : RandomOTSendRound1Message) (send1 : RandomOTSender)
      (msg2 : RandomOTReceiveRound2Message) (recv2 : RandomOTReceiever),
      (NewRandomOTReceiver zeroHash { B_pub := 1 } false).Round1 intMarshalling 1
        = (msg1, recv1) ∧
      (NewRandomOTSender zeroHash { b := 1, B_pub := 1, bB := 1 * 1 }).Round1
          intMarshalling msg1 = Except.ok (chal, send1) ∧
      recv1.Round2 chal = (msg2, recv2) ∧
      msg2.Response = send1.h_decommit0 ∧
      (send1.Round2 msg2).err = none :=
  ot_round2_response_matches intMarshalling zeroHash zeroHash_oracle 1 1 false
    (by decide)

theorem sender_round2_iff_witness :
    ((sendW.Round2 msg2W).err = none ↔ msg2W.Response = sendW.h_decommit0) ∧
    (msg2W.Response ≠ sendW.h_decommit0 →
      (sendW.Round2 msg2W).err = some "RandomOTSender Round2: invalid response") ∧
    (msg2W.Response = sendW.h_decommit0 →
      (sendW.Round2 msg2W).outMsg
        = { Decommit0 := sendW.decommit0, Decommit1 := sendW.decommit1 } ∧
      (sendW.Round2 msg2W).res = { Rand0 := sendW.rand0, Rand1 := sendW.rand1 }) :=
  sender_round2_iff sendW msg2W

theorem receiver_round3_iff_witness :
    ((recvW.Round3 msg3W).2 = none ↔
      (recvW.receivedChallenge
          = xorBytes (recvW.hash msg3W.Decommit0) (recvW.hash msg3W.Decommit1) ∧
       recvW.hash (if recvW.choice then msg3W.Decommit1 else msg3W.Decommit0)
          = recvW.hh_randChoice)) ∧
    ((recvW.Round3 msg3W).2 = none ∨
      (recvW.Round3 msg3W).2
        = some "RandomOTReceive Round 3: incorrect decommitment") ∧
    ((recvW.Round3 msg3W).2 = none → (recvW.Round3 msg3W).1 = recvW.randChoice) :=
  receiver_round3_iff recvW msg3W zeroHash_oracle

theorem setup_receive_iff_witness :
    (RandomOTSetupReceive (fun (_ : Unit) (_ : Int) => true) setupMsgW
        = Except.ok { B_pub := setupMsgW.B }
      ↔ (fun (_ : Unit) (_ : Int) => true) setupMsgW.BProof setupMsgW.B = true) ∧
    ((fun (_ : Unit) (_ : Int) => true) setupMsgW.BProof setupMsgW.B = false →
      RandomOTSetupReceive (fun (_ : Unit) (_ : Int) => true) setupMsgW
        = Except.error "RandomOTSetupReceive: Schnorr proof failed to verify") :=
  setup_receive_iff (fun _ _ => true) setupMsgW

theorem sender_round2_failure_zeroes_witness :
    (sendW.Round2 msg2Wbad).outMsg = { Decommit0 := zeroBuf, Decommit1 := zeroBuf } ∧
    (sendW.Round2 msg2Wbad).res = { Rand0 := zeroBuf, Rand1 := zeroBuf } ∧
    (sendW.Round2 msg2Wbad).err = some "RandomOTSender Round2: invalid response" ∧
    (sendW.Round2 msg2Wbad).state = sendW :=
  sender_round2_failure_zeroes sendW msg2Wbad (by decide)

theorem receiver_round3_returns_pad_witness :
    (recvW.Round3 msg3W).1 = recvW.randChoice :=
  receiver_round3_returns_pad recvW msg3W

theorem signature_verify_iff_witness :
    ({ R := 1, S := 1 } : Signature Cx).Verify 1 [] = true ↔
      ({ R := 1, S := 1 } : Signature Cx).S⁻¹
          * (Cx.fromHash [] + Cx.xScalar ({ R := 1, S := 1 } : Signature Cx).R * 1)
        = ({ R := 1, S := 1 } : Signature Cx).R :=
  signature_verify_iff Cx { R := 1, S := 1 } 1 []
